import Mathlib

/-!
Verification of the credential-handling and token-issuance module of the
nextep backend (files `Utils.js`, the user model, the auth/user routes and
the server bootstrap).

Modelling conventions:
* JavaScript strings are `List Char` (abbreviated `Str`).
* `String.prototype.split(sep)` with a one-character separator is `jsSplit`.
* `Buffer.toString('hex')` is `toHex`, operating on a list of byte values.
* The external Node `crypto.pbkdf2Sync` primitive is an arbitrary function
  parameter `pbkdf2 : Str → Str → Nat → Nat → List Nat` (password, salt,
  iterations, key length ↦ derived key bytes); the repository's code is
  quantified over it, and length facts about its output are explicit
  hypotheses taken from the documented Node contract.
* `crypto.randomBytes(16)` is modelled by passing the 16 random bytes the
  source draws as an explicit argument `saltBytes`.
* `undefined` escaping from out-of-range JS indexing is `Option`.
-/

/-- A JavaScript string, modelled as its list of characters. -/
abbrev Str := List Char

/-- JS `String.prototype.split(sep)` for a single-character separator:
splits on every occurrence of `sep`; the empty string splits to `[""]`. -/
def jsSplit (sep : Char) : Str → List Str
  | [] => [[]]
  | c :: rest =>
    let parts := jsSplit sep rest
    if c = sep then [] :: parts
    else (c :: parts.headD []) :: parts.tail

/-- Lowercase hexadecimal digit for a nibble, as produced by
`Buffer.toString('hex')` (48 = '0', 87 + 10 = 'a'). -/
def hexDigit (n : Nat) : Char :=
  if n < 10 then Char.ofNat (48 + n) else Char.ofNat (87 + n)

/-- The two lowercase hex characters that `Buffer.toString('hex')` emits for
one byte: high nibble then low nibble. -/
def byteToHex (b : Nat) : Str :=
  [hexDigit (b / 16 % 16), hexDigit (b % 16)]

/-- Node `Buffer.toString('hex')` over a list of byte values. -/
def toHex : List Nat → Str
  | [] => []
  | b :: bs => byteToHex b ++ toHex bs

/-- Lowercase-hexadecimal character test. -/
def isHexChar (c : Char) : Bool :=
  (decide ('0' ≤ c) && decide (c ≤ '9')) || (decide ('a' ≤ c) && decide (c ≤ 'f'))

/-- The source's `Utils.hashPassword` (src/Utils.js lines 23–42): hex-encode the 16 random
bytes as `salt`, run `pbkdf2Sync(password, salt, 2048, 32, "sha512")`,
hex-encode the output, and return `[salt, hash].join('$')`. -/
def hashPassword (pbkdf2 : Str → Str → Nat → Nat → List Nat)
    (saltBytes : List Nat) (password : Str) : Str :=
  let salt := toHex saltBytes
  let hash := toHex (pbkdf2 password salt 2048 32)
  salt ++ '$' :: hash

/-- The source's `Utils.verifyPassword` (src/Utils.js lines 45–62): take component 1 of
`original.split('$')` as the expected hash (JS yields `undefined`, here
`none`, when it does not exist), component 0 as the salt, re-run the key
derivation, and compare with `===` (a comparison with `undefined` is false). -/
def verifyPassword (pbkdf2 : Str → Str → Nat → Nat → List Nat)
    (password original : Str) : Bool :=
  let parts := jsSplit '$' original
  let originalHash : Option Str := parts[1]?
  let salt : Str := parts.headD []
  let hash : Str := toHex (pbkdf2 password salt 2048 32)
  originalHash == some hash

/-! Basic facts about `jsSplit` and `toHex`. -/

theorem jsSplit_ne_nil (sep : Char) (s : Str) : jsSplit sep s ≠ [] := by
  cases s with
  | nil => simp [jsSplit]
  | cons c rest =>
    by_cases hc : c = sep <;> simp [jsSplit, hc]

/-- Splitting a string that does not contain the separator yields the
singleton list holding the whole string. -/
theorem jsSplit_no_sep (sep : Char) (s : Str) (h : sep ∉ s) :
    jsSplit sep s = [s] := by
  induction s with
  | nil => rfl
  | cons c rest ih =>
    have hc : c ≠ sep := fun hcs => h (hcs ▸ List.mem_cons_self c rest)
    have hrest : sep ∉ rest := fun hm => h (List.mem_cons_of_mem c hm)
    simp [jsSplit, hc, ih hrest]

/-- Splitting `a ++ sep :: b` when `a` is separator-free prepends `a` to the
split of `b`. -/
theorem jsSplit_append (sep : Char) (a b : Str) (h : sep ∉ a) :
    jsSplit sep (a ++ sep :: b) = a :: jsSplit sep b := by
  induction a with
  | nil => simp [jsSplit]
  | cons c rest ih =>
    have hc : c ≠ sep := fun hcs => h (hcs ▸ List.mem_cons_self c rest)
    have hrest : sep ∉ rest := fun hm => h (List.mem_cons_of_mem c hm)
    have hne := jsSplit_ne_nil sep (rest ++ sep :: b)
    simp [jsSplit, hc, ih hrest]

/-- Field description of `jsSplit`: the head field is the longest
separator-free prefix, and the remaining fields are the split of what
follows the first separator (empty when there is none). -/
theorem jsSplit_eq_fields (sep : Char) (s : Str) :
    jsSplit sep s =
      s.takeWhile (fun c => c != sep) ::
        (if sep ∈ s then jsSplit sep ((s.dropWhile (fun c => c != sep)).tail)
         else []) := by
  induction s with
  | nil => simp [jsSplit]
  | cons c rest ih =>
    by_cases hc : c = sep
    · subst hc
      simp [jsSplit]
    · have hne : (c != sep) = true := by simp [hc]
      simp only [jsSplit, ih, List.takeWhile_cons, hne, if_true, List.dropWhile_cons, if_pos,
        List.mem_cons]
      by_cases hm : sep ∈ rest
      · simp only [hm, if_true, or_true, List.tail_cons]
        simp [hc]
      · simp only [hm, if_false, or_false]
        simp [hc, Ne.symm hc]

theorem hexDigit_isHexChar (n : Nat) (h : n < 16) : isHexChar (hexDigit n) = true := by
  revert h
  revert n
  decide

theorem hexDigit_ne_dollar (n : Nat) (h : n < 16) : hexDigit n ≠ '$' := by
  revert h
  revert n
  decide

theorem toHex_all_hex (bs : List Nat) : ∀ c ∈ toHex bs, isHexChar c = true := by
  induction bs with
  | nil => simp [toHex]
  | cons b rest ih =>
    intro c hc
    simp only [toHex, byteToHex, List.cons_append, List.mem_cons, List.nil_append] at hc
    rcases hc with h1 | h2 | h3
    · exact h1 ▸ hexDigit_isHexChar _ (Nat.mod_lt _ (by omega))
    · exact h2 ▸ hexDigit_isHexChar _ (Nat.mod_lt _ (by omega))
    · exact ih c h3

theorem dollar_not_mem_toHex (bs : List Nat) : '$' ∉ toHex bs := by
  intro hmem
  have := toHex_all_hex bs '$' hmem
  simp [isHexChar] at this

theorem toHex_length (bs : List Nat) : (toHex bs).length = 2 * bs.length := by
  induction bs with
  | nil => rfl
  | cons b rest ih => simp [toHex, byteToHex, ih]; omega

theorem hexDigit_inj (m n : Nat) (hm : m < 16) (hn : n < 16)
    (h : hexDigit m = hexDigit n) : m = n := by
  revert h hn
  revert n
  revert hm
  revert m
  decide

/-- Hex encoding is injective on lists of genuine bytes (values below 256). -/
theorem toHex_inj (bs1 bs2 : List Nat) (h1 : ∀ b ∈ bs1, b < 256)
    (h2 : ∀ b ∈ bs2, b < 256) (h : toHex bs1 = toHex bs2) : bs1 = bs2 := by
  induction bs1 generalizing bs2 with
  | nil =>
    cases bs2 with
    | nil => rfl
    | cons b rest => simp [toHex, byteToHex] at h
  | cons b rest ih =>
    cases bs2 with
    | nil => simp [toHex, byteToHex] at h
    | cons b2 rest2 =>
      simp only [toHex, byteToHex, List.cons_append, List.nil_append, List.cons.injEq] at h
      obtain ⟨hhi, hlo, htail⟩ := h
      have hb : b < 256 := h1 b (List.mem_cons_self _ _)
      have hb2 : b2 < 256 := h2 b2 (List.mem_cons_self _ _)
      have e1 : b / 16 % 16 = b2 / 16 % 16 :=
        hexDigit_inj _ _ (Nat.mod_lt _ (by omega)) (Nat.mod_lt _ (by omega)) hhi
      have e2 : b % 16 = b2 % 16 :=
        hexDigit_inj _ _ (Nat.mod_lt _ (by omega)) (Nat.mod_lt _ (by omega)) hlo
      have hbeq : b = b2 := by omega
      have htl : rest = rest2 :=
        ih rest2 (fun x hx => h1 x (List.mem_cons_of_mem _ hx))
          (fun x hx => h2 x (List.mem_cons_of_mem _ hx)) htail
      rw [hbeq, htl]

/-! Claims about `hashPassword` and `verifyPassword`. -/

/-- Helper: verification of a freshly derived stored hash always succeeds. -/
theorem verify_derive_aux (pbkdf2 : Str → Str → Nat → Nat → List Nat)
    (saltBytes : List Nat) (S : Str) :
    verifyPassword pbkdf2 S (hashPassword pbkdf2 saltBytes S) = true := by
  unfold hashPassword verifyPassword
  rw [jsSplit_append '$' _ _ (dollar_not_mem_toHex saltBytes),
    jsSplit_no_sep '$' _ (dollar_not_mem_toHex (pbkdf2 S (toHex saltBytes) 2048 32))]
  simp

/-- C1: for every secret `S`, verifying `S` against the stored hash produced
by deriving `S` returns true, for any salt bytes the random source supplies
during derivation and for any behaviour of the external PBKDF2 primitive. -/
theorem verify_hashPassword_roundtrip (pbkdf2 : Str → Str → Nat → Nat → List Nat)
    (saltBytes : List Nat) (S : Str) :
    verifyPassword pbkdf2 S (hashPassword pbkdf2 saltBytes S) = true :=
  verify_derive_aux pbkdf2 saltBytes S

/-- A PBKDF2 stand-in used to instantiate witness statements: it honours the
Node contract that the output buffer has exactly the requested key length. -/
def pbkdf2zero : Str → Str → Nat → Nat → List Nat :=
  fun _ _ _ keylen => List.replicate keylen 0

/-- C2: `hashPassword` returns exactly `salt + "$" + derivedHash`, where
`salt` is the hex encoding of the 16 random bytes and `derivedHash` the hex
encoding of the PBKDF2 output over the secret and the hex-encoded salt; the
result has a 32-hex-char salt, a 64-hex-char derived hash, and exactly one
`'$'`.  The hypotheses record the Node contracts: `randomBytes(16)` yields 16
bytes and `pbkdf2Sync(.., 2048, 32, ..)` yields 32 bytes. -/
theorem hashPassword_format (pbkdf2 : Str → Str → Nat → Nat → List Nat)
    (hpb : ∀ pw salt, (pbkdf2 pw salt 2048 32).length = 32)
    (saltBytes : List Nat) (hsb : saltBytes.length = 16) (S : Str) :
    hashPassword pbkdf2 saltBytes S
        = toHex saltBytes ++ '$' :: toHex (pbkdf2 S (toHex saltBytes) 2048 32)
      ∧ (toHex saltBytes).length = 32
      ∧ (toHex (pbkdf2 S (toHex saltBytes) 2048 32)).length = 64
      ∧ (∀ c ∈ toHex saltBytes, isHexChar c = true)
      ∧ (∀ c ∈ toHex (pbkdf2 S (toHex saltBytes) 2048 32), isHexChar c = true)
      ∧ (hashPassword pbkdf2 saltBytes S).count '$' = 1 := by
  refine ⟨rfl, ?_, ?_, toHex_all_hex _, toHex_all_hex _, ?_⟩
  · rw [toHex_length, hsb]
  · rw [toHex_length, hpb]
  · unfold hashPassword
    rw [List.count_append, List.count_cons]
    rw [List.count_eq_zero.mpr (dollar_not_mem_toHex saltBytes),
      List.count_eq_zero.mpr (dollar_not_mem_toHex _)]
    simp

/-- Witness for C2 at concrete inputs. -/
theorem hashPassword_format_witness :
    (∀ pw salt, (pbkdf2zero pw salt 2048 32).length = 32)
      ∧ ((List.replicate 16 0 : List Nat).length = 16)
      ∧ ((hashPassword pbkdf2zero (List.replicate 16 0) ['a']).count '$' = 1) :=
  ⟨fun _ _ => by simp [pbkdf2zero],
   by simp,
   (hashPassword_format pbkdf2zero (fun _ _ => by simp [pbkdf2zero])
      (List.replicate 16 0) (by simp) ['a']).2.2.2.2.2⟩

/-- Split at the first occurrence of `sep` only: the part before it and the
whole remainder after it.  Written to follow the spec's words for C3
("split storedHash on the first `$` into salt and expectedHash"), to be
compared with the source's `verifyPassword`. -/
def splitFirst (sep : Char) (s : Str) : Option (Str × Str) :=
  if sep ∈ s then
    some (s.takeWhile (fun c => c != sep), (s.dropWhile (fun c => c != sep)).tail)
  else none

/-- Verification as literally described by the spec sentence for C3: the
expected hash is everything after the first `'$'`.  This differs from the
source's `verifyPassword`, which takes component 1 of the full split, i.e.
only the segment up to the next `'$'`. -/
def verifyPassword_specFirstSplit (pbkdf2 : Str → Str → Nat → Nat → List Nat)
    (password original : Str) : Bool :=
  match splitFirst '$' original with
  | none => false
  | some (salt, expectedHash) => toHex (pbkdf2 password salt 2048 32) == expectedHash

/-- A stored-hash string with a second `'$'` and trailing junk after a
well-formed `salt$derivedHash` prefix for `pbkdf2zero`. -/
def multiDollarStored : Str :=
  "ab".toList ++ '$' :: toHex (List.replicate 32 0) ++ '$' :: ['x']

/-- C3 counterexample: on a stored string with a second `'$'`, the code
returns true although the derived hex string does not equal the text after
the first `'$'` (which still contains a `'$'`); so "split on the first `$`
into salt and expectedHash, true iff derived equals expectedHash" does not
describe the code. -/
theorem verifyPassword_not_first_split :
    verifyPassword pbkdf2zero ['p'] multiDollarStored = true
      ∧ verifyPassword_specFirstSplit pbkdf2zero ['p'] multiDollarStored = false := by
  constructor
  · decide
  · decide

/-- C3 amended: `verifyPassword` splits on every `'$'`, takes the text
before the first `'$'` as the salt and the segment between the first and
second `'$'` (to the end when there is no second) as the expected hash,
re-runs PBKDF2 (SHA-512, 2048 iterations, 32 bytes) on the candidate secret
with that salt, and returns true iff the derived hex string equals that
segment exactly. -/
theorem verifyPassword_characterization (pbkdf2 : Str → Str → Nat → Nat → List Nat)
    (S H : Str) :
    verifyPassword pbkdf2 S H = true ↔
      '$' ∈ H ∧
        ((H.dropWhile (fun c => c != '$')).tail.takeWhile (fun c => c != '$'))
          = toHex (pbkdf2 S (H.takeWhile (fun c => c != '$')) 2048 32) := by
  unfold verifyPassword
  rw [jsSplit_eq_fields]
  by_cases hm : '$' ∈ H
  · rw [if_pos hm]
    rw [jsSplit_eq_fields '$' ((H.dropWhile (fun c => c != '$')).tail)]
    simp [hm]
  · rw [if_neg hm]
    simp [hm]

/-- A stored string whose salt component holds non-hex characters,
followed by exactly the derived hash `pbkdf2zero` yields for that salt. -/
def nonHexSaltStored : Str :=
  "zz".toList ++ '$' :: toHex (pbkdf2zero ['p'] "zz".toList 2048 32)

/-- C4 counterexample: a stored string with non-hex content (its salt
component is "zz") on which `verifyPassword` returns true, not false: the
source passes the extracted salt verbatim to `pbkdf2Sync`, which accepts an
arbitrary string, so non-hex content outside the expected-hash component
does not cause rejection. -/
theorem verifyPassword_nonhex_salt_accepted :
    (∃ c ∈ nonHexSaltStored, isHexChar c = false)
      ∧ verifyPassword pbkdf2zero ['p'] nonHexSaltStored = true := by
  constructor
  · exact ⟨'z', by decide, by decide⟩
  · decide

/-- C4 amended: verification fails closed — returning false, with no
exception escaping (the embedding is a total function: no control path of
the source throws on string input, the out-of-range index only yields
`undefined`, modelled by `Option`) — when the stored value has no `'$'`
separator, or when its expected-hash component (the segment between the
first and second `'$'`) holds a non-hex character.  Non-hex content
elsewhere, such as in the salt component, does not itself cause rejection,
since the extracted salt is passed as an arbitrary string to the key
derivation. -/
theorem verifyPassword_malformed (pbkdf2 : Str → Str → Nat → Nat → List Nat)
    (S H : Str)
    (h : '$' ∉ H ∨ ∃ c ∈ ((jsSplit '$' H)[1]?).getD [], isHexChar c = false) :
    verifyPassword pbkdf2 S H = false := by
  unfold verifyPassword
  rcases h with hnos | ⟨c, hc, hchex⟩
  · rw [jsSplit_no_sep '$' H hnos]
    rfl
  · cases hx : (jsSplit '$' H)[1]? with
    | none => simp [hx]
    | some f =>
      rw [hx] at hc
      simp only [Option.getD_some] at hc
      simp only [hx]
      rw [beq_eq_false_iff_ne]
      intro hfeq
      rw [Option.some.injEq] at hfeq
      rw [hfeq] at hc
      have := toHex_all_hex (pbkdf2 S ((jsSplit '$' H).headD []) 2048 32) c hc
      rw [this] at hchex
      exact absurd hchex (by simp)

/-- Witness for C4 at a concrete malformed input with no `'$'`. -/
theorem verifyPassword_malformed_witness :
    ('$' ∉ "abc".toList ∨
        ∃ c ∈ ((jsSplit '$' "abc".toList)[1]?).getD [], isHexChar c = false)
      ∧ verifyPassword pbkdf2zero ['p'] "abc".toList = false :=
  ⟨Or.inl (by decide),
   verifyPassword_malformed pbkdf2zero ['p'] "abc".toList (Or.inl (by decide))⟩

/-- C9: deriving the same secret twice with the random source supplying
distinct 16-byte salts yields two different stored hashes, and both verify
against the secret. -/
theorem hashPassword_twice_distinct (pbkdf2 : Str → Str → Nat → Nat → List Nat)
    (S : Str) (sb1 sb2 : List Nat)
    (hl1 : sb1.length = 16) (hl2 : sb2.length = 16)
    (hb1 : ∀ b ∈ sb1, b < 256) (hb2 : ∀ b ∈ sb2, b < 256)
    (hne : sb1 ≠ sb2) :
    hashPassword pbkdf2 sb1 S ≠ hashPassword pbkdf2 sb2 S
      ∧ verifyPassword pbkdf2 S (hashPassword pbkdf2 sb1 S) = true
      ∧ verifyPassword pbkdf2 S (hashPassword pbkdf2 sb2 S) = true := by
  refine ⟨?_, verify_derive_aux pbkdf2 sb1 S, verify_derive_aux pbkdf2 sb2 S⟩
  intro heq
  unfold hashPassword at heq
  have hlen : (toHex sb1).length = (toHex sb2).length := by
    rw [toHex_length, toHex_length, hl1, hl2]
  exact hne (toHex_inj sb1 sb2 hb1 hb2 (List.append_inj heq hlen).1)

/-- Witness for C9 at two concrete distinct salts. -/
theorem hashPassword_twice_distinct_witness :
    (List.replicate 16 0 : List Nat).length = 16
      ∧ (List.replicate 15 0 ++ [1] : List Nat).length = 16
      ∧ (∀ b ∈ (List.replicate 16 0 : List Nat), b < 256)
      ∧ (∀ b ∈ (List.replicate 15 0 ++ [1] : List Nat), b < 256)
      ∧ (List.replicate 16 0 : List Nat) ≠ List.replicate 15 0 ++ [1]
      ∧ hashPassword pbkdf2zero (List.replicate 16 0) ['a']
          ≠ hashPassword pbkdf2zero (List.replicate 15 0 ++ [1]) ['a'] :=
  ⟨by decide, by decide, by decide, by decide, by decide,
   (hashPassword_twice_distinct pbkdf2zero ['a'] (List.replicate 16 0)
      (List.replicate 15 0 ++ [1]) (by decide) (by decide) (by decide) (by decide)
      (by decide)).1⟩

/-!
Token service.  The external `jsonwebtoken` library is modelled abstractly:
a signed token is its payload (the source always signs the wrapper
`{ user: user }`, so the payload is the `user` field plus the expiry claim)
together with the key it was signed with; `verify` succeeds exactly when it
is given the same key and the expiry epoch is still in the future
(`jsonwebtoken` treats a token as expired once the clock reaches `exp`).
`'30min'` is parsed by the library's `ms` dependency to 30 minutes.
-/

/-- Failure modes of `jsonwebtoken.verify` relevant here. -/
inductive JwtError
  | invalidSignature
  | tokenExpired
deriving DecidableEq

/-- An opaque signed token: the wrapped `user` payload, the expiry instant
(epoch seconds) and the signing key the signature commits to. -/
structure SignedToken (α : Type) where
  user : α
  exp : Nat
  signedWith : Str
deriving DecidableEq

/-- The decoded payload `jsonwebtoken.verify` hands back on success:
the `user` field plus the expiry claim. -/
structure Decoded (α : Type) where
  user : α
  exp : Nat
deriving DecidableEq

/-- The `expiresIn: '30min'` lifetime in seconds. -/
def thirtyMinutes : Nat := 30 * 60

/-- The source's `Utils.generateAccessToken` (src/Utils.js lines 64–66):
`jsonWebToken.sign({ user: user }, SECRET_KEY, { expiresIn: '30min' })`. -/
def generateAccessToken {α : Type} (secretKey : Str) (now : Nat) (user : α) :
    SignedToken α :=
  { user := user, exp := now + thirtyMinutes, signedWith := secretKey }

/-- Library `jsonwebtoken.verify(token, key, cb)`: signature check against the key,
then expiry check against the current time; on success the decoded payload. -/
def jwtVerify {α : Type} (key : Str) (now : Nat) (tok : SignedToken α) :
    Except JwtError (Decoded α) :=
  if tok.signedWith ≠ key then Except.error JwtError.invalidSignature
  else if tok.exp ≤ now then Except.error JwtError.tokenExpired
  else Except.ok { user := tok.user, exp := tok.exp }

/-- The responses GET /auth/validate can produce. -/
inductive ValidateResponse (α : Type)
  | ok (decoded : Decoded α)
  | headerMissing
  | tokenMissing
  | invalidOrExpired
deriving DecidableEq

/-- GET /auth/validate (src/unnamed/part_002 lines 257–301): 401 when the
Authorization header or its token part is missing, otherwise verify the
token with `SECRET_KEY`; 200 with the decoded payload on success, 403
"Invalid or expired token" when verification rejects.  The header is
modelled post-transport: `none` = header absent, `some none` = no token
after the scheme word, `some (some tok)` = a presented token. -/
def authValidate {α : Type} (key : Str) (now : Nat) :
    Option (Option (SignedToken α)) → ValidateResponse α
  | none => ValidateResponse.headerMissing
  | some none => ValidateResponse.tokenMissing
  | some (some tok) =>
    match jwtVerify key now tok with
    | Except.ok d => ValidateResponse.ok d
    | Except.error _ => ValidateResponse.invalidOrExpired

/-- C5: a token minted over payload `P` wraps `P` as the `user` field with a
30-minute expiry, and validating it with the same key before the 30 minutes
elapse returns the decoded payload whose `user` field equals `P`. -/
theorem validate_mint_roundtrip {α : Type} (key : Str) (P : α) (T now : Nat)
    (h : now < T + thirtyMinutes) :
    authValidate key now (some (some (generateAccessToken key T P)))
      = ValidateResponse.ok { user := P, exp := T + thirtyMinutes } := by
  simp only [authValidate, jwtVerify, generateAccessToken]
  rw [if_neg (by simp), if_neg (by omega)]

/-- Witness for C5 at concrete inputs. -/
theorem validate_mint_roundtrip_witness :
    100 < 0 + thirtyMinutes
      ∧ authValidate (α := Nat) ['k'] 100 (some (some (generateAccessToken ['k'] 0 7)))
          = ValidateResponse.ok { user := 7, exp := 0 + thirtyMinutes } :=
  ⟨by decide, validate_mint_roundtrip ['k'] 7 0 100 (by decide)⟩

/-- C6: a token minted at time `T` and presented at `T + 31` minutes is
rejected as expired: `verify` yields the expiry error and the route answers
with the invalid-or-expired outcome instead of the payload. -/
theorem token_rejected_at_31_minutes {α : Type} (key : Str) (P : α) (T : Nat) :
    jwtVerify key (T + 31 * 60) (generateAccessToken key T P)
        = Except.error JwtError.tokenExpired
      ∧ authValidate key (T + 31 * 60) (some (some (generateAccessToken key T P)))
        = ValidateResponse.invalidOrExpired := by
  have hv : jwtVerify key (T + 31 * 60) (generateAccessToken key T P)
      = Except.error JwtError.tokenExpired := by
    simp only [jwtVerify, generateAccessToken]
    rw [if_neg (by simp), if_pos (by unfold thirtyMinutes; omega)]
  exact ⟨hv, by simp only [authValidate, hv]⟩

/-! Process configuration and server bootstrap. -/

/-- The environment variables the module reads; `none` models an unset
variable. -/
structure Env where
  secretKey : Option Str
  port : Option Nat
  mongodbUri : Option Str
deriving DecidableEq

/-- How process start can end. -/
inductive BootstrapOutcome
  | listening (port : Nat)
  | abortedStartup
deriving DecidableEq

/-- Server bootstrap (src/unnamed/part_004): load dotenv, start the MongoDB
connection (a failure is only logged), register middleware and the /user,
/auth and /job-application routers, then unconditionally listen on
`process.env.PORT || 3000`.  The file contains no check of `SECRET_KEY`,
so no startup path aborts for a missing secret key. -/
def serverBootstrap (env : Env) : BootstrapOutcome :=
  BootstrapOutcome.listening (env.port.getD 3000)

/-- The signing failure `jsonwebtoken.sign` raises at call time. -/
inductive SignError
  | missingSecretKey
deriving DecidableEq

/-- The call `Utils.generateAccessToken` as actually invoked: it reads
`process.env.SECRET_KEY` at each call; when the variable is unset,
`jsonwebtoken.sign` throws ("secretOrPrivateKey must have a value"),
surfacing as a per-call error inside the route's try/catch. -/
def generateAccessTokenEnv {α : Type} (env : Env) (now : Nat) (user : α) :
    Except SignError (SignedToken α) :=
  match env.secretKey with
  | none => Except.error SignError.missingSecretKey
  | some key => Except.ok (generateAccessToken key now user)

/-- An environment with no secret key configured. -/
def env0 : Env := { secretKey := none, port := none, mongodbUri := none }

/-- C8 counterexample: with the secret key unset, process start still
reaches the listening state — initialization is not aborted — and the
absence is first detected inside an individual mint call. -/
theorem bootstrap_ignores_missing_secret :
    serverBootstrap env0 ≠ BootstrapOutcome.abortedStartup
      ∧ generateAccessTokenEnv env0 0 (0 : Nat)
          = Except.error SignError.missingSecretKey :=
  ⟨by decide, rfl⟩

/-- C8 amended: when the secret key is not configured, startup nonetheless
completes (listening on PORT or 3000) and the missing key is detected only
inside each individual mint call, as a per-call signing error. -/
theorem missing_secret_fails_per_call {α : Type} (u : α) (env : Env) (t : Nat)
    (h : env.secretKey = none) :
    serverBootstrap env = BootstrapOutcome.listening (env.port.getD 3000)
      ∧ generateAccessTokenEnv env t u = Except.error SignError.missingSecretKey :=
  ⟨rfl, by simp [generateAccessTokenEnv, h]⟩

/-- Witness for the amended C8 at a concrete environment. -/
theorem missing_secret_fails_per_call_witness :
    env0.secretKey = none
      ∧ serverBootstrap env0 = BootstrapOutcome.listening (env0.port.getD 3000)
      ∧ generateAccessTokenEnv env0 5 (3 : Nat) = Except.error SignError.missingSecretKey :=
  ⟨rfl, (missing_secret_fails_per_call 3 env0 5 rfl).1,
   (missing_secret_fails_per_call 3 env0 5 rfl).2⟩

/-!
The user model and the routes that write it.  Fields of the schema in
src/unnamed/part_000 that no claim mentions (the free-text name and
biography fields, handled identically to `email` by the routes) are
omitted.
-/

/-- A persisted user record as stored in MongoDB. -/
structure StoredUser where
  email : Str
  password : Str
  avatar : Str
  accessLevel : Int
  newUser : Bool
deriving DecidableEq

/-- An in-memory Mongoose document: the stored fields plus the
`isModified('password')` flag Mongoose tracks for middleware. -/
structure UserDoc where
  email : Str
  password : Str
  avatar : Str
  accessLevel : Int
  newUser : Bool
  passwordModified : Bool
deriving DecidableEq

/-- Lookup `User.findById`: a document freshly loaded from the database has no
modified paths. -/
def findByIdDoc (s : StoredUser) : UserDoc :=
  { email := s.email, password := s.password, avatar := s.avatar,
    accessLevel := s.accessLevel, newUser := s.newUser, passwordModified := false }

/-- The `userSchema.pre('save')` middleware (src/unnamed/part_000 lines
73–85): when the password is truthy (non-empty) and `isModified('password')`
holds, replace it with `Utils.hashPassword(password)`. -/
def preSaveHook (pbkdf2 : Str → Str → Nat → Nat → List Nat)
    (saltBytes : List Nat) (u : UserDoc) : UserDoc :=
  if u.password ≠ [] ∧ u.passwordModified then
    { u with password := hashPassword pbkdf2 saltBytes u.password }
  else u

/-- Mongoose `document.save()`: run the pre-save middleware, then persist the
document's fields. -/
def saveDoc (pbkdf2 : Str → Str → Nat → Nat → List Nat)
    (saltBytes : List Nat) (u : UserDoc) : StoredUser :=
  let v := preSaveHook pbkdf2 saltBytes u
  { email := v.email, password := v.password, avatar := v.avatar,
    accessLevel := v.accessLevel, newUser := v.newUser }

/-- Assigning `user.avatar = a` marks only the avatar path as modified; the
password flag is untouched. -/
def setAvatar (u : UserDoc) (a : Str) : UserDoc := { u with avatar := a }

/-- DELETE /user/:id/avatar (src/unnamed/part_003 lines 281–313) on an
existing user: load the document, clear the avatar field and `save()`
(file-system cleanup is outside the data model). -/
def deleteAvatarRoute (pbkdf2 : Str → Str → Nat → Nat → List Nat)
    (saltBytes : List Nat) (s : StoredUser) : StoredUser :=
  saveDoc pbkdf2 saltBytes (setAvatar (findByIdDoc s) [])

/-- POST /user/:id/avatar (src/unnamed/part_003 lines 320–374) on an
existing user: load the document, set the avatar to the processed file name
and `save()`. -/
def postAvatarRoute (pbkdf2 : Str → Str → Nat → Nat → List Nat)
    (saltBytes : List Nat) (fname : Str) (s : StoredUser) : StoredUser :=
  saveDoc pbkdf2 saltBytes (setAvatar (findByIdDoc s) fname)

/-- JS `String.prototype.trim` (the whitespace forms that occur here). -/
def isJsSpace (c : Char) : Bool :=
  (c == ' ') || (c == '\t') || (c == '\n') || (c == '\r')

/-- JS `String.prototype.trim`: strip leading and trailing whitespace. -/
def jsTrim (s : Str) : Str :=
  ((s.dropWhile isJsSpace).reverse.dropWhile isJsSpace).reverse

/-- The request body of PUT /user/:id; `none` models an absent
(`undefined`) field. -/
structure PutBody where
  email : Option Str
  accessLevel : Option Int
  newUser : Option Bool
  password : Option Str
deriving DecidableEq

/-- The `updates` object PUT /user/:id builds field-by-field
(src/unnamed/part_003 lines 199–274): any defined field is copied, the
password only when it is a non-empty string whose trim is non-empty
(`req.body.password && req.body.password.trim() !== ''`). -/
def buildUpdates (body : PutBody) : PutBody :=
  { email := body.email, accessLevel := body.accessLevel, newUser := body.newUser,
    password :=
      match body.password with
      | some p => if p ≠ [] ∧ jsTrim p ≠ [] then some p else none
      | none => none }

/-- Mongoose `User.findByIdAndUpdate(id, updates)` executes as a MongoDB update
query writing each defined update field directly; Mongoose document
middleware (`pre('save')`) does not run for `findByIdAndUpdate`, so the
password value is written verbatim. -/
def findByIdAndUpdate (s : StoredUser) (upd : PutBody) : StoredUser :=
  { email := upd.email.getD s.email,
    password := upd.password.getD s.password,
    avatar := s.avatar,
    accessLevel := upd.accessLevel.getD s.accessLevel,
    newUser := upd.newUser.getD s.newUser }

/-- PUT /user/:id (src/unnamed/part_003 lines 199–274) on an existing user:
build the updates object and apply `findByIdAndUpdate`. -/
def putUserRoute (body : PutBody) (s : StoredUser) : StoredUser :=
  findByIdAndUpdate s (buildUpdates body)

/-- A request body that sets a new password, and a stored user. -/
def putBodyNewPass : PutBody :=
  { email := none, accessLevel := none, newUser := none,
    password := some "newpass123".toList }

/-- A user record as it sits in the database before the update. -/
def storedUser0 : StoredUser :=
  { email := "a@b.c".toList, password := "salt$hash".toList, avatar := [],
    accessLevel := 1, newUser := false }

/-- C7 (bug evidence): PUT /user/:id with password "newpass123" stores the
literal plaintext in the password field — a value `hashPassword` can never
produce, since every derived stored hash contains a `'$'`.  The pre-save
hashing hook does not run on the `findByIdAndUpdate` path. -/
theorem putUser_stores_plaintext :
    (putUserRoute putBodyNewPass storedUser0).password = "newpass123".toList
      ∧ ∀ (pbkdf2 : Str → Str → Nat → Nat → List Nat) (saltBytes : List Nat)
          (pw : Str), hashPassword pbkdf2 saltBytes pw ≠ "newpass123".toList := by
  constructor
  · decide
  · intro pbkdf2 saltBytes pw heq
    have hmem : '$' ∈ hashPassword pbkdf2 saltBytes pw := by
      unfold hashPassword
      exact List.mem_append_right _ (List.mem_cons_self _ _)
    rw [heq] at hmem
    exact absurd hmem (by decide)

/-- C10: saving a user through the avatar routes (which modify only the
avatar field) leaves the stored password byte-for-byte unchanged: the
pre-save hook re-derives only when the password path was modified. -/
theorem avatar_routes_preserve_password (pbkdf2 : Str → Str → Nat → Nat → List Nat)
    (saltBytes : List Nat) (fname : Str) (s : StoredUser) :
    (deleteAvatarRoute pbkdf2 saltBytes s).password = s.password
      ∧ (postAvatarRoute pbkdf2 saltBytes fname s).password = s.password := by
  constructor <;>
    simp [deleteAvatarRoute, postAvatarRoute, saveDoc, preSaveHook, setAvatar, findByIdDoc]
